import Mathlib

/-!
# Verification of GenomePlotter color and annotation functions

A shallow embedding of the parts of the GenomePlotter repository that the
verified claims are about:

* `functions/ColorFunctions.py` : `hex_to_rgb`, `rgb_to_hex`,
  `linear_gradient`, `color_darkener`, `ColorPicker.map_color`;
* `src/genome_plotter/input_parsers/data_integrator.py` : `add_genes`,
  `add_centromere`, `assign_hetero`, `add_xy_coordinates`, `integrate_data`;
* `functions/GeneAnnotator.py` : `PositionConverter.convert`,
  `GeneAnnotator.genes_on_chromosome_arms`, `generate_gene_annotation`,
  `get_dimensions`.

Python strings are modelled as `List Char`; Python floats as `ℚ` (exact
arithmetic standing in for IEEE floats); `None`/`NaN` cells as `Option`;
raised exceptions as `Except String` / `Option` results.
-/

namespace GenomePlotter

/-! ## Hexadecimal digits -/

/-- Value of a single hexadecimal digit character, lowercase letters only
(the Python code lowercases the string before parsing with `int(_, 16)`).
Sign/whitespace forms accepted by Python's `int` are outside the inputs of
interest (single digit characters) and are not modelled. -/
def hexDigitVal (c : Char) : Option ℕ :=
  if '0' ≤ c ∧ c ≤ '9' then some (c.toNat - '0'.toNat)
  else if 'a' ≤ c ∧ c ≤ 'f' then some (c.toNat - 'a'.toNat + 10)
  else none

/-- A character is a hexadecimal digit (either case), as matched by the
regular expression class `[0-9A-Fa-f]` in `color_darkener`. -/
def isHexDigitChar (c : Char) : Bool :=
  (hexDigitVal c.toLower).isSome

/-- Lowercasing a list of characters, the model of Python `str.lower()`
restricted to the characters appearing in hex color strings. -/
def toLowerStr (s : List Char) : List Char :=
  s.map Char.toLower

/-! ## `hex_to_rgb` and `rgb_to_hex` -/

/-- Parse two hex digits (already lowercased) into a byte value, the model
of Python `int(hex_color[i:i+2], 16)`. -/
def parseHexPair (c₁ c₂ : Char) : Option ℕ :=
  match hexDigitVal c₁, hexDigitVal c₂ with
  | some v₁, some v₂ => some (16 * v₁ + v₂)
  | _, _ => none

/-- `hex_to_rgb` from `ColorFunctions.py`: checks the string has length 7
and starts with `#`, lowercases it, and parses the three two-digit groups.
A `ValueError` is modelled as `none`. -/
def hex_to_rgb (s : List Char) : Option (List ℕ) :=
  match s with
  | ['#', a, b, c, d, e, f] =>
      match parseHexPair a.toLower b.toLower, parseHexPair c.toLower d.toLower,
          parseHexPair e.toLower f.toLower with
      | some r, some g, some bl => some [r, g, bl]
      | _, _, _ => none
  | _ => none

/-- Digit-collecting loop for hexadecimal formatting; `fuel` bounds the
number of digits and is always sufficient at the call site. -/
def natToHexAux : ℕ → ℕ → List Char → List Char
  | 0, _, acc => acc
  | fuel + 1, v, acc =>
      let acc' := Nat.digitChar (v % 16) :: acc
      if v / 16 = 0 then acc' else natToHexAux fuel (v / 16) acc'

/-- Format a natural number in lowercase hexadecimal with no leading zeros,
the model of Python `'{0:x}'.format(v)`. -/
def natToHex (v : ℕ) : List Char :=
  natToHexAux (v + 1) v []

/-- `rgb_to_hex` from `ColorFunctions.py`: each component is formatted in
hex, zero-padded to two digits when below 16, and the results are joined
after a `#`. -/
def rgb_to_hex (rgb : List ℕ) : List Char :=
  '#' :: (rgb.map fun v => if v < 16 then '0' :: natToHex v else natToHex v).flatten

/-! ## `linear_gradient` -/

/-- Python `int()` applied to a rational: truncation toward zero. -/
def pyInt (q : ℚ) : ℤ :=
  if q < 0 then ⌈q⌉ else ⌊q⌋

/-- The loop counter values `range(1, length)` of the interpolation loop in
`linear_gradient`, for a (possibly negative) integer `length`. -/
def gradientSteps (length : ℤ) : List ℕ :=
  (List.range (length - 1).toNat).map (· + 1)

/-- One interpolated color of `linear_gradient`: component `j` is
`int(start[j] + (step/(length-1)) * (finish[j] - start[j]))`. -/
def gradientPoint (startRgb finishRgb : List ℕ) (length : ℤ) (step : ℕ) : List Char :=
  rgb_to_hex <|
    (List.zip startRgb finishRgb).map fun p =>
      (pyInt ((p.1 : ℚ) + ((step : ℚ) / ((length : ℚ) - 1)) * ((p.2 : ℚ) - (p.1 : ℚ)))).toNat

/-- `linear_gradient` from `ColorFunctions.py`. Both endpoint colors are
parsed first (a bad color raises, modelled as `Except.error`); `length == 0`
returns the empty list; otherwise the list starts with the lowercased start
color followed by the colors interpolated at `step = 1 .. length-1`.
`length` is an integer in the model, so the `isinstance(length, int)` check
always passes. -/
def linear_gradient (start_hex finish_hex : List Char) (length : ℤ) :
    Except String (List (List Char)) := do
  let start_rgb ← match hex_to_rgb start_hex with
    | some v => Except.ok v
    | none => Except.error "ValueError: bad start color"
  let finish_rgb ← match hex_to_rgb finish_hex with
    | some v => Except.ok v
    | none => Except.error "ValueError: bad finish color"
  if length = 0 then
    pure []
  else
    pure (toLowerStr start_hex ::
      (gradientSteps length).map (gradientPoint start_rgb finish_rgb length))

/-! ## `colorsys` (CPython standard library), over exact rationals -/

/-- Python `q % 1.0` for a float `q`: the fractional part in `[0, 1)`. -/
def qmod1 (q : ℚ) : ℚ := q - ⌊q⌋

/-- `colorsys.rgb_to_hls`. -/
def rgb_to_hls (r g b : ℚ) : ℚ × ℚ × ℚ :=
  let maxc := max r (max g b)
  let minc := min r (min g b)
  let sumc := maxc + minc
  let rangec := maxc - minc
  let l := sumc / 2
  if minc = maxc then (0, l, 0)
  else
    let s := if l ≤ 1/2 then rangec / sumc else rangec / (2 - sumc)
    let rc := (maxc - r) / rangec
    let gc := (maxc - g) / rangec
    let bc := (maxc - b) / rangec
    let h := if r = maxc then bc - gc else if g = maxc then 2 + rc - bc else 4 + gc - rc
    (qmod1 (h / 6), l, s)

/-- `colorsys._v`. -/
def hlsV (m1 m2 hue : ℚ) : ℚ :=
  let hue' := qmod1 hue
  if hue' < 1/6 then m1 + (m2 - m1) * hue' * 6
  else if hue' < 1/2 then m2
  else if hue' < 2/3 then m1 + (m2 - m1) * (2/3 - hue') * 6
  else m1

/-- `colorsys.hls_to_rgb`. -/
def hls_to_rgb (h l s : ℚ) : ℚ × ℚ × ℚ :=
  if s = 0 then (l, l, l)
  else
    let m2 := if l ≤ 1/2 then l * (1 + s) else l + s - l * s
    let m1 := 2 * l - m2
    (hlsV m1 m2 (h + 1/3), hlsV m1 m2 h, hlsV m1 m2 (h - 1/3))

/-! ## `color_darkener` -/

/-- `re.match(r"#[0-9A-Fa-f]{6}", color)`: a prefix match, so characters
after the first seven are unconstrained. -/
def matchesHexColorRegex (s : List Char) : Bool :=
  match s with
  | '#' :: a :: b :: c :: d :: e :: f :: _ =>
      [a, b, c, d, e, f].all isHexDigitChar
  | _ => false

/-- The luminosity scale factor computed in the darkening branch of
`color_darkener`: `1 - max_diff_value * (col_frac - threshold) / (1 - threshold)`. -/
def darkFactor (colFrac threshold maxDiff : ℚ) : ℚ :=
  1 - maxDiff * ((colFrac - threshold) / (1 - threshold))

/-- The scaled lightness the darkening branch passes to `hls_to_rgb`:
the `l` component of `rgb_to_hls` of the parsed color, multiplied by
`darkFactor`.  (`hls_code[1] * factor` in the source.) -/
def darkenedLightness (r g b : ℕ) (colFrac threshold maxDiff : ℚ) : ℚ :=
  (rgb_to_hls ((r : ℚ)/255) ((g : ℚ)/255) ((b : ℚ)/255)).2.1 *
    darkFactor colFrac threshold maxDiff

/-- `color_darkener` from `ColorFunctions.py`.  Validation: the color must
match the (prefix) hex regex, `threshold` and `max_diff_value` must not
exceed 1 (`TypeError` otherwise); then `col_frac = x / width` is computed
(`ZeroDivisionError` when `width == 0`); when `col_frac > threshold` the
color is converted to HLS, its lightness is scaled by `darkFactor`, and the
result is converted back, each channel truncated by `int(v * 255)`;
otherwise the input color is returned unchanged. -/
def color_darkener (color : List Char) (x width : ℤ)
    (threshold max_diff_value : ℚ) : Except String (List Char) :=
  if ¬ matchesHexColorRegex color then
    Except.error "TypeError: color is expected to be hexadecimal"
  else if threshold > 1 then
    Except.error "TypeError: threshold has to be a float below 1"
  else if max_diff_value > 1 then
    Except.error "TypeError: the darkening has to be a float below 1"
  else if width = 0 then
    Except.error "ZeroDivisionError"
  else
    let col_frac : ℚ := (x : ℚ) / (width : ℚ)
    if col_frac > threshold then
      if (1 : ℚ) - threshold = 0 then
        Except.error "ZeroDivisionError"
      else
        match hex_to_rgb color with
        | none => Except.error "ValueError: bad hexadecimal color"
        | some [r, g, b] =>
            let hls := rgb_to_hls ((r : ℚ)/255) ((g : ℚ)/255) ((b : ℚ)/255)
            let newRgb := hls_to_rgb hls.1
              (darkenedLightness r g b col_frac threshold max_diff_value) hls.2.2
            Except.ok (rgb_to_hex
              [(pyInt (newRgb.1 * 255)).toNat,
               (pyInt (newRgb.2.1 * 255)).toNat,
               (pyInt (newRgb.2.2 * 255)).toNat])
        | some _ => Except.error "unreachable: hex_to_rgb returns 3 components"
    else
      Except.ok color

/-! ## `ColorPicker` -/

/-- The supported feature classes (`ColorPicker.features`). -/
def features : List String :=
  ["exon", "gene", "intergenic", "centromere", "heterochromatin", "dummy"]

/-- `re.match(r"#[0-9A-F]{6}", hex_color)` from `ColorPicker.__init__`:
a prefix match accepting digits and uppercase `A-F` only. -/
def matchesUpperHexRegex (s : List Char) : Bool :=
  match s with
  | '#' :: a :: b :: c :: d :: e :: f :: _ =>
      [a, b, c, d, e, f].all fun ch =>
        (('0' ≤ ch && ch ≤ '9') || ('A' ≤ ch && ch ≤ 'F'))
  | _ => false

/-- The default `finish_hex` of `linear_gradient`, `"#FFFFFF"`. -/
def defaultFinishHex : List Char := ['#', 'F', 'F', 'F', 'F', 'F', 'F']

/-- The state of a constructed `ColorPicker`: the gradients generated for
the six feature classes, plus the stored parameters. -/
structure ColorPickerState where
  colorMap : List (String × List (List Char))
  dark_max : ℚ
  dark_threshold : ℚ
  width : ℤ
  count : ℤ

/-- `ColorPicker.__init__`: all six features must be present with colors
matching the uppercase hex regex, `dark_max` and `dark_threshold` must lie
strictly between 0 and 1 (`ValueError` otherwise, modelled as `none`), and
a gradient of `count` colors toward `#FFFFFF` is generated for every
feature. -/
def mkColorPicker (colors : String → List Char)
    (dark_max dark_threshold : ℚ) (count width : ℤ) :
    Option ColorPickerState :=
  if ¬ features.all (fun f => matchesUpperHexRegex (colors f)) then none
  else if dark_max ≥ 1 ∨ dark_max ≤ 0 then none
  else if dark_threshold ≥ 1 ∨ dark_threshold ≤ 0 then none
  else do
    -- the dict comprehension over the fixed class attribute `features`,
    -- unrolled; a gradient failure propagates the exception
    let gExon ← (linear_gradient (colors "exon") defaultFinishHex count).toOption
    let gGene ← (linear_gradient (colors "gene") defaultFinishHex count).toOption
    let gInter ← (linear_gradient (colors "intergenic") defaultFinishHex count).toOption
    let gCentro ← (linear_gradient (colors "centromere") defaultFinishHex count).toOption
    let gHetero ← (linear_gradient (colors "heterochromatin") defaultFinishHex count).toOption
    let gDummy ← (linear_gradient (colors "dummy") defaultFinishHex count).toOption
    pure ⟨[("exon", gExon), ("gene", gGene), ("intergenic", gInter),
           ("centromere", gCentro), ("heterochromatin", gHetero),
           ("dummy", gDummy)], dark_max, dark_threshold, width, count⟩

/-- Python list indexing `l[i]`: negative indices count from the end,
out-of-range indices raise `IndexError` (modelled as `none`). -/
def pyListGet {α : Type} (l : List α) (i : ℤ) : Option α :=
  if 0 ≤ i then l.get? i.toNat
  else if 0 ≤ (l.length : ℤ) + i then l.get? ((l.length : ℤ) + i).toNat
  else none

/-- `ColorPicker.map_color`: `dummy` features get the first dummy gradient
color; an undefined (`None`/`NaN`) `gc_content` gets the first
heterochromatin gradient color; otherwise the feature's gradient is indexed
at `int(gc_content * (count - 1))`, a missing feature (`KeyError`) falling
back to black. -/
def map_color (cp : ColorPickerState) (feature : String) (gc_content : Option ℚ) :
    Option (List Char) :=
  if feature = "dummy" then
    (cp.colorMap.lookup "dummy").bind fun grad => pyListGet grad 0
  else
    match gc_content with
    | none => (cp.colorMap.lookup "heterochromatin").bind fun grad => pyListGet grad 0
    | some gc =>
        match cp.colorMap.lookup feature with
        | some grad => pyListGet grad (pyInt (gc * ((cp.count : ℚ) - 1)))
        | none => some ['#', '0', '0', '0', '0', '0', '0']

/-! ## `data_integrator.py`

A chromosome file row (`chr`, `start`, `end`, `GC_ratio`) plus the
`GENCODE` column added during integration (`none` models both a missing
column and a `None`/`NaN` cell).  A `NaN` `GC_ratio` is `none`. -/

structure Chunk where
  chr : String
  start : ℤ
  end_ : ℤ
  GC_ratio : Option ℚ
  GENCODE : Option String := none
  deriving DecidableEq, Repr

/-- A GENCODE annotation row, in the column order of the file written by
`FetchGencode.save_gencode_data`: `chr`, `start`, `end`, `gene_id`,
`gene_name`, `transcript_id`, `type`. -/
structure GencodeFeature where
  chr : String
  start : ℤ
  end_ : ℤ
  gene_id : String := ""
  gene_name : String := ""
  transcript_id : String := ""
  type : String
  deriving DecidableEq, Repr

/-- A cytoband row (`chr`, `start`, `end`, `name`, `type`). -/
structure CytobandRow where
  chr : String
  start : ℤ
  end_ : ℤ
  name : String
  type : String
  deriving DecidableEq, Repr

/-- The state of a `DataIntegrator`: the genome table and the chromosome
name captured in `__init__` from the first row (`iloc[0]['chr']`);
construction fails (`IndexError`) on an empty table.  The mandatory-column
check of `__init__` is enforced by the `Chunk` type. -/
structure IntegratorState where
  genome : List Chunk
  chromosomeName : String
  deriving DecidableEq, Repr

/-- `DataIntegrator.__init__`. -/
def mkIntegrator (chunks : List Chunk) : Option IntegratorState :=
  (chunks.get? 0).map fun c => ⟨chunks, c.chr⟩

/-- `bedtools intersect` reports a chunk/feature pair when the two records
are on the same chromosome and their half-open intervals share at least one
base: `feature.start < chunk.end` and `chunk.start < feature.end`.  The
GENCODE side is pre-filtered to the integrator's chromosome, as in
`add_genes`. -/
def intersectPairs (chrom : String) (gencode : List GencodeFeature)
    (chunks : List Chunk) : List (Chunk × GencodeFeature) :=
  chunks.flatMap fun c =>
    ((gencode.filter fun f => f.chr = chrom).filter fun f =>
        c.chr = f.chr ∧ f.start < c.end_ ∧ c.start < f.end_).map fun f => (c, f)

/-- The tab-separated fields of a genome chunk's BED line in the
`integrate_data` pipeline: `chr`, `start`, `end`, `GC_ratio` only —
`integrate_data` never calls `add_xy_coordinates` before `add_genes`, so
there are no `x`/`y` fields.  Only the field count matters downstream; the
rendering of the numeric fields is never inspected. -/
def chunkBedFields (c : Chunk) : List String :=
  [c.chr, toString c.start, toString c.end_,
   match c.GC_ratio with
   | none => "nan"
   | some q => toString q]

/-- The tab-separated fields of a GENCODE BED line, in file column order. -/
def gencodeBedFields (f : GencodeFeature) : List String :=
  [f.chr, toString f.start, toString f.end_, f.gene_id, f.gene_name,
   f.transcript_id, f.type]

/-- The value of the `type` column of `intersect_df` for the intersect row
of chunk `c` and feature `f`.  `to_dataframe` parses each row's fields
(`wa`+`wb`: the 4 genome fields followed by the 7 GENCODE fields, 11 in
all) against the 13 hard-coded names `chr, start, end, GC_ratio, x, y,
chr_2, start_2, end_2, gene_id, gene_name, transcript_id, type`; pandas
left-aligns the 11 fields and fills the names beyond them —
`transcript_id` and `type` — with `NaN` (`none` here).  `type` is the 13th
name, index 12, so in this pipeline the column is `NaN` on every row (the
feature's real type lands under the name `gene_name`). -/
def intersectTypeColumn (c : Chunk) (f : GencodeFeature) : Option String :=
  (chunkBedFields c ++ gencodeBedFields f).get? 12

/-- The `groupby("start").apply(...)` step of `add_genes`: for a chunk
start value present among the intersection rows (`start`, the 2nd of the
13 names, is the chunk start), the label is `exon` when any row of the
group has `'exon'` in its `type` column, else `gene`; starts with no group
get no label.  The `type` column read here is the misaligned one
(`intersectTypeColumn`). -/
def gencodeChunkLabel (pairs : List (Chunk × GencodeFeature)) (s : ℤ) :
    Option String :=
  let rows := pairs.filter fun p => p.1.start = s
  if rows.isEmpty then none
  else some (if rows.any fun p => intersectTypeColumn p.1 p.2 = some "exon"
    then "exon" else "gene")

/-- `DataIntegrator.add_genes` as it runs in the `integrate_data` pipeline:
intersect the (4-column) genome with the GENCODE annotation, parse the
result against the 13 hard-coded column names (misaligned, see
`intersectTypeColumn`), group by chunk start, label each group, merge the
labels back by start (`how="left"`) and fill missing labels with
`intergenic`.  (The early return when a `GENCODE` column already exists
does not arise in the pipeline, where `add_genes` runs first.) -/
def IntegratorState.add_genes (st : IntegratorState)
    (gencode : List GencodeFeature) : IntegratorState :=
  let pairs := intersectPairs st.chromosomeName gencode st.genome
  { st with genome := st.genome.map fun c =>
      { c with GENCODE := some ((gencodeChunkLabel pairs c.start).getD "intergenic") } }

/-- The per-chunk classification in the words of the spec (for comparison
with `add_genes`): a chunk is `exon` if any overlapping feature
(`feature.start < chunk.end` and `feature.end > chunk.start`) has type
`exon`, else `gene` if any feature overlaps, else `intergenic`. -/
def specChunkLabel (gencode : List GencodeFeature) (c : Chunk) : String :=
  let overlapping := gencode.filter fun f => f.start < c.end_ ∧ f.end_ > c.start
  if overlapping.any fun f => f.type = "exon" then "exon"
  else if ¬ overlapping.isEmpty then "gene"
  else "intergenic"

/-- `DataIntegrator.add_centromere`: read the chromosome from the row at
index 1 (`self.__genome__.chr[1]`, a `KeyError` when absent), compute the
centromere span as the min start and max end of the `acen` cytobands of
that chromosome (`ValueError` when there are none), and overwrite the
`GENCODE` label with `centromere` for every chunk with
`end > span.1 ∧ start < span.2`. -/
def IntegratorState.add_centromere (st : IntegratorState)
    (cytoband : List CytobandRow) : Except String IntegratorState :=
  match st.genome.get? 1 with
  | none => Except.error "KeyError: 1"
  | some c1 =>
      let acen := cytoband.filter fun r => r.chr = c1.chr ∧ r.type = "acen"
      match (acen.map fun r => r.start).min?, (acen.map fun r => r.end_).max? with
      | some lo, some hi =>
          Except.ok { st with genome := st.genome.map fun c =>
            if c.end_ > lo ∧ c.start < hi then { c with GENCODE := some "centromere" }
            else c }
      | _, _ => Except.error "ValueError: cannot convert NaN to integer"

/-- `DataIntegrator.assign_hetero`: overwrite the `GENCODE` label with
`heterochromatin` for every chunk whose `GC_ratio` is null. -/
def IntegratorState.assign_hetero (st : IntegratorState) : IntegratorState :=
  { st with genome := st.genome.map fun c =>
      if c.GC_ratio = none then { c with GENCODE := some "heterochromatin" } else c }

/-- `DataIntegrator.add_dummy` (pipeline case, where the `GENCODE` column
exists after `add_centromere`): fill missing labels with `dummy`. -/
def IntegratorState.add_dummy (st : IntegratorState) : IntegratorState :=
  { st with genome := st.genome.map fun c =>
      if c.GENCODE = none then { c with GENCODE := some "dummy" } else c }

/-- The per-chromosome body of `integrate_data`: build the integrator and
either (dummy mode) add the centromere and dummy labels, or run
`add_genes`, then `add_centromere`, then `assign_hetero`. -/
def integrate_data (dummy : Bool) (chunks : List Chunk)
    (gencode : List GencodeFeature) (cytoband : List CytobandRow) :
    Except String (List Chunk) := do
  let st ← match mkIntegrator chunks with
    | some s => Except.ok s
    | none => Except.error "IndexError: empty genome"
  if dummy then
    let st ← st.add_centromere cytoband
    pure st.add_dummy.genome
  else
    let st := st.add_genes gencode
    let st ← st.add_centromere cytoband
    pure st.assign_hetero.genome

/-- `DataIntegrator.add_xy_coordinates` on a genome of `n` chunks: a falsy
(`0`) width is replaced by `n`; chunk `i` gets `x = i % width` and
`y = int(i / width)` (the `int32` cast truncates the float quotient, which
for the non-negative values at hand is the floor). -/
def add_xy_coordinates (n : ℕ) (width : ℕ) : List (ℕ × ℕ) :=
  let w := if width = 0 then n else width
  (List.range n).map fun i => (i % w, i / w)

/-! ## `GeneAnnotator.py`

Each iteration of the loop in `genes_on_chromosome_arms` emits one label
(three connector segments and one text element at `y = text_pos - 10`); a
label is recorded here as the pair `(pos, text_pos)`. -/

/-- `PositionConverter.convert`: genomic position to plot y coordinate. -/
def PositionConverter.convert (width chunkSize pixel : ℚ) (position : ℚ) : ℚ :=
  position / (width * chunkSize) * pixel

/-- A chromosome arm. -/
inductive Arm
  | p
  | q
  deriving DecidableEq, Repr

/-- The mutable per-call state of `genes_on_chromosome_arms`: the running
`limit` (initialized to the centromere pixel position) and the
`__svg_top` / `__svg_bottom` instance fields. -/
structure AnnotState where
  limit : ℚ
  svgTop : ℚ
  svgBottom : ℚ
  deriving DecidableEq, Repr

/-- One iteration of the loop body of `genes_on_chromosome_arms`: place a
label for a gene at pixel position `pos`, advance `limit`, and widen the
svg extent when the new `limit` crosses it.  Returns the new state and the
emitted `(pos, text_pos)` label. -/
def armStep (arm : Arm) (fontSize : ℚ) (st : AnnotState) (pos : ℚ) :
    AnnotState × (ℚ × ℚ) :=
  let textPos :=
    match arm with
    | Arm.p => if st.limit ≤ pos then st.limit - 10 else pos
    | Arm.q => if st.limit > pos then st.limit + 10 else pos
  let limit :=
    match arm with
    | Arm.p => textPos - fontSize - 10
    | Arm.q => textPos + fontSize + 10
  let svgTop := if limit - 50 < st.svgTop then limit - fontSize - 50 else st.svgTop
  let svgBottom :=
    if limit + 50 > st.svgBottom then limit + fontSize + 50 else st.svgBottom
  (⟨limit, svgTop, svgBottom⟩, (pos, textPos))

/-- `GeneAnnotator.genes_on_chromosome_arms`: fold `armStep` over the
(converted) gene positions of one arm, collecting the emitted labels. -/
def genes_on_chromosome_arms (arm : Arm) (fontSize : ℚ) (st : AnnotState) :
    List ℚ → AnnotState × List (ℚ × ℚ)
  | [] => (st, [])
  | pos :: rest =>
      let next := armStep arm fontSize st pos
      let tail := genes_on_chromosome_arms arm fontSize next.1 rest
      (tail.1, next.2 :: tail.2)

/-- `GeneAnnotator.generate_gene_annotation` (with the constructor's state
initialization `__svg_top = 0`, `__svg_bottom = height`,
`__fontSize = pixel * 10`): the p-arm gets the genes with
`start ≤ centromerePosition` in decreasing start order, the q-arm the
genes with `start > centromerePosition` in increasing order; each arm
starts from `limit = convert(centromerePosition)` while the svg extent is
threaded through both calls.  Returns the labels of both arms and the
final `(top, bottom)` extent reported by `get_dimensions`. -/
def generate_gene_annot (geneStarts : List ℚ) (centromerePosition : ℚ)
    (width chunkSize pixel height : ℚ) : List (ℚ × ℚ) × ℚ × ℚ :=
  let fontSize := pixel * 10
  let conv := PositionConverter.convert width chunkSize pixel
  let limit₀ := conv centromerePosition
  let pStarts :=
    ((geneStarts.filter fun s => s ≤ centromerePosition).insertionSort fun a b => b ≤ a)
  let qStarts :=
    ((geneStarts.filter fun s => s > centromerePosition).insertionSort fun a b => a ≤ b)
  let pRun := genes_on_chromosome_arms Arm.p fontSize ⟨limit₀, 0, height⟩
    (pStarts.map conv)
  let qRun := genes_on_chromosome_arms Arm.q fontSize
    ⟨limit₀, pRun.1.svgTop, pRun.1.svgBottom⟩ (qStarts.map conv)
  (pRun.2 ++ qRun.2, qRun.1.svgTop, qRun.1.svgBottom)

/-! ## Helper lemmas -/

theorem hexDigitVal_spec (c : Char) (v : ℕ) (h : hexDigitVal c = some v) :
    v < 16 ∧ Nat.digitChar v = c := by
  unfold hexDigitVal at h
  by_cases h1 : '0' ≤ c ∧ c ≤ '9'
  · rw [if_pos h1] at h
    injection h with h
    have hlo : 48 ≤ c.toNat := h1.1
    have hhi : c.toNat ≤ 57 := h1.2
    have hc : c = Char.ofNat c.toNat := (Char.ofNat_toNat c).symm
    have h0 : '0'.toNat = 48 := rfl
    rw [h0] at h
    have hv : c.toNat = v + 48 := by omega
    have hv9 : v ≤ 9 := by omega
    refine ⟨by omega, ?_⟩
    rw [hc, hv]
    interval_cases v <;> rfl
  · rw [if_neg h1] at h
    by_cases h2 : 'a' ≤ c ∧ c ≤ 'f'
    · rw [if_pos h2] at h
      injection h with h
      have hlo : 97 ≤ c.toNat := h2.1
      have hhi : c.toNat ≤ 102 := h2.2
      have hc : c = Char.ofNat c.toNat := (Char.ofNat_toNat c).symm
      have ha : 'a'.toNat = 97 := rfl
      rw [ha] at h
      have hv : c.toNat = v + 87 := by omega
      have hv10 : 10 ≤ v := by omega
      have hv15 : v ≤ 15 := by omega
      refine ⟨by omega, ?_⟩
      rw [hc, hv]
      interval_cases v <;> rfl
    · rw [if_neg h2] at h
      exact Option.noConfusion h

theorem natToHexAux_small (fuel v : ℕ) (acc : List Char) (h : v < 16) :
    natToHexAux (fuel + 1) v acc = Nat.digitChar v :: acc := by
  unfold natToHexAux
  rw [Nat.mod_eq_of_lt h]
  simp [Nat.div_eq_of_lt h]

theorem natToHex_of_lt (v : ℕ) (h : v < 16) : natToHex v = [Nat.digitChar v] := by
  unfold natToHex
  exact natToHexAux_small v v [] h

theorem natToHex_of_byte (v : ℕ) (h16 : 16 ≤ v) (h : v < 256) :
    natToHex v = [Nat.digitChar (v / 16), Nat.digitChar (v % 16)] := by
  obtain ⟨k, rfl⟩ : ∃ k, v = k + 1 := ⟨v - 1, by omega⟩
  unfold natToHex natToHexAux
  have hne : ¬ (k + 1) / 16 = 0 := by omega
  simp only [hne, if_false]
  obtain ⟨m, hm⟩ : ∃ m, k = m + 1 := ⟨k - 1, by omega⟩
  rw [hm]
  exact natToHexAux_small (m + 1) ((m + 1 + 1) / 16) _ (by omega)

theorem byteHex_parseHexPair (d₁ d₂ : Char) (v : ℕ) (h : parseHexPair d₁ d₂ = some v) :
    (if v < 16 then '0' :: natToHex v else natToHex v) = [d₁, d₂] := by
  rcases h₁ : hexDigitVal d₁ with _ | v₁
  · simp [parseHexPair, h₁] at h
  rcases h₂ : hexDigitVal d₂ with _ | v₂
  · simp [parseHexPair, h₁, h₂] at h
  simp only [parseHexPair, h₁, h₂, Option.some.injEq] at h
  obtain ⟨hlt₁, hd₁⟩ := hexDigitVal_spec _ _ h₁
  obtain ⟨hlt₂, hd₂⟩ := hexDigitVal_spec _ _ h₂
  subst h
  by_cases h0 : v₁ = 0
  · have hv2 : 16 * v₁ + v₂ = v₂ := by omega
    rw [hv2, if_pos hlt₂, natToHex_of_lt _ hlt₂, ← hd₁, ← hd₂, h0]
    rfl
  · have hge : 16 ≤ 16 * v₁ + v₂ := by omega
    rw [if_neg (by omega), natToHex_of_byte _ hge (by omega)]
    have e₁ : (16 * v₁ + v₂) / 16 = v₁ := by omega
    have e₂ : (16 * v₁ + v₂) % 16 = v₂ := by omega
    rw [e₁, e₂, hd₁, hd₂]

theorem rgb_to_hex_hex_to_rgb (s : List Char) (rgb : List ℕ)
    (h : hex_to_rgb s = some rgb) : rgb_to_hex rgb = toLowerStr s := by
  unfold hex_to_rgb at h
  split at h
  case _ a b c d e f =>
    rcases hr : parseHexPair a.toLower b.toLower with _ | r
    · simp [hr] at h
    rcases hg : parseHexPair c.toLower d.toLower with _ | g
    · simp [hr, hg] at h
    rcases hb : parseHexPair e.toLower f.toLower with _ | bl
    · simp [hr, hg, hb] at h
    simp only [hr, hg, hb, Option.some.injEq] at h
    subst h
    unfold rgb_to_hex toLowerStr
    simp only [List.map_cons, List.map_nil, List.flatten_cons, List.flatten_nil,
      List.append_nil]
    rw [byteHex_parseHexPair _ _ _ hr, byteHex_parseHexPair _ _ _ hg,
      byteHex_parseHexPair _ _ _ hb]
    have hh : '#'.toLower = '#' := by decide
    simp [hh]
  case _ => exact Option.noConfusion h

theorem gradientSteps_eq_nil (n : ℤ) (h : n ≤ 1) : gradientSteps n = [] := by
  unfold gradientSteps
  have : (n - 1).toNat = 0 := by omega
  simp [this]

theorem linear_gradient_eq_of_valid (s f : List Char) (rs fs : List ℕ) (n : ℤ)
    (hs : hex_to_rgb s = some rs) (hf : hex_to_rgb f = some fs) (hn : n ≠ 0) :
    linear_gradient s f n =
      Except.ok (toLowerStr s :: (gradientSteps n).map (gradientPoint rs fs n)) := by
  unfold linear_gradient
  rw [hs, hf]
  simp only [hn, if_false]
  rfl

/-! ## Claim theorems: color gradient (C4, C10, C6, C7) -/

/-- **C4.** The coordinate mapper of `add_xy_coordinates` is a bijection
between chunk index and grid position: for every index `i` of a genome of
`n` chunks and a fixed `width ≥ 1`, the assigned column is `i % width`, the
assigned row is `⌊i / width⌋`, and `row * width + column = i`. -/
theorem add_xy_coordinates_bijection (n width i : ℕ) (hw : 1 ≤ width) (hi : i < n) :
    (add_xy_coordinates n width)[i]? = some (i % width, i / width) ∧
    (i / width) * width + i % width = i := by
  refine ⟨?_, by rw [Nat.mul_comm]; exact Nat.div_add_mod i width⟩
  unfold add_xy_coordinates
  have hw0 : ¬ width = 0 := by omega
  simp [hw0, List.getElem?_map, List.getElem?_range, hi]

/-- Witness for C4 at `n = 5`, `width = 2`, `i = 3`. -/
theorem add_xy_coordinates_bijection_witness :
    (add_xy_coordinates 5 2)[3]? = some (1, 1) ∧ 1 * 2 + 1 = 3 :=
  add_xy_coordinates_bijection 5 2 3 (by decide) (by decide)

/-- **C10.** `linear_gradient` (aka `build_gradient`) with `length = 1` and
valid endpoint colors returns exactly the one-element list holding the
lowercased start color; the interpolation loop (whose counters are
`gradientSteps`, with denominator `length - 1` in the body) runs zero
times, so the function is total at `length = 1`. -/
theorem linear_gradient_length_one (s f : List Char) (rs fs : List ℕ)
    (hs : hex_to_rgb s = some rs) (hf : hex_to_rgb f = some fs) :
    linear_gradient s f 1 = Except.ok [toLowerStr s] ∧ gradientSteps 1 = [] := by
  refine ⟨?_, gradientSteps_eq_nil 1 (by omega)⟩
  rw [linear_gradient_eq_of_valid s f rs fs 1 hs hf (by omega),
    gradientSteps_eq_nil 1 (by omega)]
  rfl

/-- Witness for C10 at start `#Ab01ff`, finish `#FFFFFF`. -/
theorem linear_gradient_length_one_witness :
    linear_gradient ['#', 'A', 'b', '0', '1', 'f', 'f'] defaultFinishHex 1 =
      Except.ok [['#', 'a', 'b', '0', '1', 'f', 'f']] ∧ gradientSteps 1 = [] :=
  linear_gradient_length_one ['#', 'A', 'b', '0', '1', 'f', 'f'] defaultFinishHex
    [171, 1, 255] [255, 255, 255] (by decide) (by decide)

theorem pyInt_natCast (a : ℕ) : pyInt (a : ℚ) = (a : ℤ) := by
  unfold pyInt
  rw [if_neg (not_lt.mpr (by positivity)), Int.floor_natCast]

theorem zip_self_map {α : Type} (l : List α) : List.zip l l = l.map fun a => (a, a) := by
  induction l with
  | nil => rfl
  | cons a t ih => simp [List.zip_cons_cons, ih]

theorem gradientPoint_self (rs : List ℕ) (n : ℤ) (step : ℕ) :
    gradientPoint rs rs n step = rgb_to_hex rs := by
  unfold gradientPoint
  congr 1
  rw [zip_self_map, List.map_map]
  have : ∀ a : ℕ,
      (pyInt ((a : ℚ) + ((step : ℚ) / ((n : ℚ) - 1)) * ((a : ℚ) - (a : ℚ)))).toNat = a := by
    intro a
    have h : (a : ℚ) + ((step : ℚ) / ((n : ℚ) - 1)) * ((a : ℚ) - (a : ℚ)) = (a : ℚ) := by
      ring
    rw [h, pyInt_natCast, Int.toNat_natCast]
  calc rs.map _ = rs.map id := List.map_congr_left fun a _ => this a
    _ = rs := List.map_id rs

/-- **C6 counterexample.** `linear_gradient` (aka `build_gradient`) with
`length = -1` and valid endpoint colors does not raise: it returns the
one-element list of the lowercased start color, contradicting the claim
that negative step counts raise a configuration error. -/
theorem linear_gradient_negative_counterexample :
    linear_gradient ['#', '0', '0', '0', '0', '0', '0'] defaultFinishHex (-1) =
      Except.ok [['#', '0', '0', '0', '0', '0', '0']] := by
  rfl

/-- **C6 (amended).** For valid hex endpoints, `length = 0` returns the
empty list (and the `length == 0` case returns before the loop); a negative
`length` is not rejected: the loop runs zero times and the call returns the
one-element list of the lowercased start color.  (A non-integer `length` is
rejected by the `isinstance` check, which the integer-typed model makes
vacuous.) -/
theorem linear_gradient_zero_and_negative (s f : List Char) (rs fs : List ℕ)
    (n : ℤ) (hs : hex_to_rgb s = some rs) (hf : hex_to_rgb f = some fs)
    (hn : n < 0) :
    linear_gradient s f 0 = Except.ok [] ∧
    linear_gradient s f n = Except.ok [toLowerStr s] := by
  constructor
  · unfold linear_gradient
    rw [hs, hf]
    rfl
  · rw [linear_gradient_eq_of_valid s f rs fs n hs hf (by omega),
      gradientSteps_eq_nil n (by omega)]
    rfl

/-- Witness for the amended C6 at black/white endpoints and `length = -5`. -/
theorem linear_gradient_zero_and_negative_witness :
    linear_gradient ['#', '0', '0', '0', '0', '0', '0'] defaultFinishHex 0 =
        Except.ok [] ∧
    linear_gradient ['#', '0', '0', '0', '0', '0', '0'] defaultFinishHex (-5) =
        Except.ok [['#', '0', '0', '0', '0', '0', '0']] :=
  linear_gradient_zero_and_negative ['#', '0', '0', '0', '0', '0', '0']
    defaultFinishHex [0, 0, 0] [255, 255, 255] (-5) (by rfl) (by rfl) (by decide)

/-- **C7 counterexample.** With equal uppercase endpoints `#FFFFFF` and
`length = 2`, the returned elements are the lowercased `#ffffff`, which is
not equal (as a string) to the start color `#FFFFFF`: the claim that every
element equals the start color fails for non-lowercase input. -/
theorem linear_gradient_uppercase_counterexample :
    linear_gradient ['#', 'F', 'F', 'F', 'F', 'F', 'F']
        ['#', 'F', 'F', 'F', 'F', 'F', 'F'] 2 =
      Except.ok [['#', 'f', 'f', 'f', 'f', 'f', 'f'],
                 ['#', 'f', 'f', 'f', 'f', 'f', 'f']] ∧
    ¬ (['#', 'f', 'f', 'f', 'f', 'f', 'f'] = ['#', 'F', 'F', 'F', 'F', 'F', 'F']) := by
  constructor
  · rw [linear_gradient_eq_of_valid _ _ [255, 255, 255] [255, 255, 255] 2
      (by rfl) (by rfl) (by decide)]
    have hsteps : gradientSteps 2 = [1] := by decide
    rw [hsteps]
    simp only [List.map_cons, List.map_nil, gradientPoint_self]
    rw [rgb_to_hex_hex_to_rgb ['#', 'F', 'F', 'F', 'F', 'F', 'F'] [255, 255, 255]
      (by rfl)]
    rfl
  · decide

/-- **C7 (amended).** For valid hex endpoints and `length ≥ 2`, the result
has exactly `length` colors, its first element is the lowercased start
color, and for equal endpoints every element equals the *lowercased* start
color. -/
theorem linear_gradient_count_head_const (s f : List Char) (rs fs : List ℕ)
    (n : ℤ) (out : List (List Char)) (hs : hex_to_rgb s = some rs)
    (hf : hex_to_rgb f = some fs) (hn : 2 ≤ n)
    (hout : linear_gradient s f n = Except.ok out) :
    (out.length : ℤ) = n ∧ out.head? = some (toLowerStr s) ∧
    (s = f → out.all (fun c => c = toLowerStr s)) := by
  rw [linear_gradient_eq_of_valid s f rs fs n hs hf (by omega)] at hout
  injection hout with hout
  subst hout
  refine ⟨?_, rfl, ?_⟩
  · simp only [List.length_cons, List.length_map, gradientSteps, List.length_range]
    push_cast
    omega
  · intro hsf
    have hfs : fs = rs := by
      rw [hsf] at hs
      rw [hf] at hs
      exact Option.some.inj hs
    simp only [List.all_eq_true, decide_eq_true_eq]
    intro c hc
    rcases List.mem_cons.mp hc with h | h
    · exact h
    · obtain ⟨step, _, hstep⟩ := List.mem_map.mp h
      rw [← hstep, hfs, gradientPoint_self, rgb_to_hex_hex_to_rgb s rs hs]

/-- Witness for the amended C7 at equal endpoints `#000000`, `length = 3`. -/
theorem linear_gradient_count_head_const_witness :
    ((([['#', '0', '0', '0', '0', '0', '0'], ['#', '0', '0', '0', '0', '0', '0'],
        ['#', '0', '0', '0', '0', '0', '0']] : List (List Char)).length : ℤ) = 3) ∧
    ([['#', '0', '0', '0', '0', '0', '0'], ['#', '0', '0', '0', '0', '0', '0'],
      ['#', '0', '0', '0', '0', '0', '0']] : List (List Char)).head? =
        some ['#', '0', '0', '0', '0', '0', '0'] ∧
    (['#', '0', '0', '0', '0', '0', '0'] = ['#', '0', '0', '0', '0', '0', '0'] →
      ([['#', '0', '0', '0', '0', '0', '0'], ['#', '0', '0', '0', '0', '0', '0'],
        ['#', '0', '0', '0', '0', '0', '0']] : List (List Char)).all
          (fun c => c = ['#', '0', '0', '0', '0', '0', '0'])) := by
  have hout : linear_gradient ['#', '0', '0', '0', '0', '0', '0']
      ['#', '0', '0', '0', '0', '0', '0'] 3 =
      Except.ok [['#', '0', '0', '0', '0', '0', '0'],
        ['#', '0', '0', '0', '0', '0', '0'], ['#', '0', '0', '0', '0', '0', '0']] := by
    rw [linear_gradient_eq_of_valid _ _ [0, 0, 0] [0, 0, 0] 3 (by rfl) (by rfl)
      (by decide)]
    have hsteps : gradientSteps 3 = [1, 2] := by decide
    rw [hsteps]
    simp only [List.map_cons, List.map_nil, gradientPoint_self]
    rw [rgb_to_hex_hex_to_rgb ['#', '0', '0', '0', '0', '0', '0'] [0, 0, 0] (by rfl)]
    rfl
  exact linear_gradient_count_head_const ['#', '0', '0', '0', '0', '0', '0']
    ['#', '0', '0', '0', '0', '0', '0'] [0, 0, 0] [0, 0, 0] 3 _ (by rfl) (by rfl)
    (by decide) hout

/-! ## Claim theorems: `color_darkener` (C5, C8) -/

/-- Whether a call raised an exception. -/
def isError {ε α : Type} : Except ε α → Bool
  | Except.error _ => true
  | Except.ok _ => false

/-- **C5 counterexample.** A call with `threshold = 1 ≥ 1`, max darkening
fraction `1 ≥ 1` and non-positive `width = -1` is accepted: the color is
returned unchanged, contradicting the claim that each of these inputs is
rejected with a validation error. -/
theorem color_darkener_accepts_counterexample :
    color_darkener ['#', '0', '0', '0', '0', '0', '0'] 0 (-1) 1 1 =
      Except.ok ['#', '0', '0', '0', '0', '0', '0'] := by
  have hm : matchesHexColorRegex ['#', '0', '0', '0', '0', '0', '0'] = true := by
    decide
  simp only [color_darkener, hm]
  norm_num

/-- **C5 (amended).** `color_darkener` raises at call time for a color not
matching the hex regex, for `threshold > 1`, for `max_diff_value > 1`, and
for `width = 0` (the latter a `ZeroDivisionError` when computing the column
fraction); but `threshold = 1`, `max_diff_value = 1` and negative widths
are accepted without error. -/
theorem color_darkener_validation (color : List Char) (x width : ℤ)
    (threshold md : ℚ)
    (h : ¬ matchesHexColorRegex color ∨ 1 < threshold ∨ 1 < md ∨ width = 0) :
    isError (color_darkener color x width threshold md) = true := by
  by_cases h1 : matchesHexColorRegex color
  case neg => simp [color_darkener, h1, isError]
  by_cases h2 : threshold > 1
  case pos => simp [color_darkener, h1, h2, isError]
  by_cases h3 : md > 1
  case pos => simp [color_darkener, h1, h2, h3, isError]
  by_cases h4 : width = 0
  case pos => simp [color_darkener, h1, h2, h3, h4, isError]
  rcases h with h | h | h | h
  · exact absurd h1 h
  · exact absurd h h2
  · exact absurd h h3
  · exact absurd h h4

/-- Witness for the amended C5 at `width = 0`. -/
theorem color_darkener_validation_witness :
    isError (color_darkener ['#', '0', '0', '0', '0', '0', '0'] 0 0
      (1/2) (1/2)) = true :=
  color_darkener_validation ['#', '0', '0', '0', '0', '0', '0'] 0 0 (1/2) (1/2)
    (Or.inr (Or.inr (Or.inr rfl)))

theorem rgb_to_hls_l_nonneg (r g b : ℚ) (hr : 0 ≤ r) (hg : 0 ≤ g) (hb : 0 ≤ b) :
    0 ≤ (rgb_to_hls r g b).2.1 := by
  have hmax : 0 ≤ max r (max g b) := le_trans hr (le_max_left _ _)
  have hmin : 0 ≤ min r (min g b) := le_min hr (le_min hg hb)
  unfold rgb_to_hls
  dsimp only
  split
  · dsimp only
    linarith
  · dsimp only
    linarith

/-- **C8.** The darkening transform is the identity for every column with
`x / width ≤ threshold` (on validated inputs the color is returned
unchanged), and past the threshold the scaled lightness the code applies
(`darkenedLightness`, i.e. the parsed color's HLS lightness multiplied by
`darkFactor = 1 - max_diff_value * (col_frac - threshold) / (1 - threshold)`)
is monotone non-increasing as the column increases. -/
theorem color_darkener_identity_and_monotone (color : List Char)
    (x x₁ x₂ width : ℤ) (threshold md : ℚ) (r g b : ℕ) :
    (matchesHexColorRegex color → ¬ 1 < threshold → ¬ 1 < md → ¬ width = 0 →
      (x : ℚ) / (width : ℚ) ≤ threshold →
      color_darkener color x width threshold md = Except.ok color) ∧
    (0 < width → threshold < 1 → 0 ≤ md → x₁ ≤ x₂ →
      darkenedLightness r g b ((x₂ : ℚ) / (width : ℚ)) threshold md ≤
      darkenedLightness r g b ((x₁ : ℚ) / (width : ℚ)) threshold md) := by
  constructor
  · intro h1 h2 h3 h4 h5
    simp only [color_darkener, h1, not_true_eq_false, if_false, h2, h3, h4,
      not_lt.mpr h5, if_true]
  · intro hw ht hmd hx
    unfold darkenedLightness
    have hl : 0 ≤ (rgb_to_hls ((r : ℚ)/255) ((g : ℚ)/255) ((b : ℚ)/255)).2.1 :=
      rgb_to_hls_l_nonneg _ _ _ (by positivity) (by positivity) (by positivity)
    apply mul_le_mul_of_nonneg_left ?_ hl
    unfold darkFactor
    have h1t : (0 : ℚ) < 1 - threshold := by linarith
    have hwq : (0 : ℚ) < (width : ℚ) := by exact_mod_cast hw
    have hdiv : (x₁ : ℚ) / (width : ℚ) ≤ (x₂ : ℚ) / (width : ℚ) := by
      apply div_le_div_of_nonneg_right ?_ hwq.le
      exact_mod_cast hx
    have hfrac : ((x₁ : ℚ) / (width : ℚ) - threshold) / (1 - threshold) ≤
        ((x₂ : ℚ) / (width : ℚ) - threshold) / (1 - threshold) := by
      apply div_le_div_of_nonneg_right ?_ h1t.le
      linarith
    nlinarith [mul_le_mul_of_nonneg_left hfrac hmd]

/-- Witness for C8 at `#abcdef`, `width = 10`, `threshold = 1/2`,
`max_diff_value = 1/2`: identity at column 2, monotone between columns 6
and 9. -/
theorem color_darkener_identity_and_monotone_witness :
    color_darkener ['#', 'a', 'b', 'c', 'd', 'e', 'f'] 2 10 (1/2) (1/2) =
        Except.ok ['#', 'a', 'b', 'c', 'd', 'e', 'f'] ∧
    darkenedLightness 171 205 239 ((9 : ℚ) / 10) (1/2) (1/2) ≤
      darkenedLightness 171 205 239 ((6 : ℚ) / 10) (1/2) (1/2) := by
  have h := color_darkener_identity_and_monotone
    ['#', 'a', 'b', 'c', 'd', 'e', 'f'] 2 6 9 10 (1/2) (1/2) 171 205 239
  constructor
  · exact h.1 (by decide) (by norm_num) (by norm_num) (by decide) (by norm_num)
  · have h2 := h.2 (by decide) (by norm_num) (by norm_num) (by decide)
    have e9 : ((9 : ℤ) : ℚ) / ((10 : ℤ) : ℚ) = (9 : ℚ) / 10 := by norm_num
    have e6 : ((6 : ℤ) : ℚ) / ((10 : ℤ) : ℚ) = (6 : ℚ) / 10 := by norm_num
    rw [e9, e6] at h2
    exact h2

/-! ## Claim theorems: `ColorPicker.map_color` (C9) -/

theorem linear_gradient_error_left (s f : List Char) (n : ℤ)
    (hs : hex_to_rgb s = none) :
    linear_gradient s f n = Except.error "ValueError: bad start color" := by
  unfold linear_gradient
  rw [hs]
  rfl

theorem linear_gradient_error_right (s f : List Char) (rs : List ℕ) (n : ℤ)
    (hs : hex_to_rgb s = some rs) (hf : hex_to_rgb f = none) :
    linear_gradient s f n = Except.error "ValueError: bad finish color" := by
  unfold linear_gradient
  rw [hs, hf]
  rfl

theorem linear_gradient_head (s f : List Char) (n : ℤ) (out : List (List Char))
    (hn : n ≠ 0) (h : linear_gradient s f n = Except.ok out) :
    out.head? = some (toLowerStr s) := by
  rcases hs : hex_to_rgb s with _ | rs
  · rw [linear_gradient_error_left s f n hs] at h
    exact Except.noConfusion h
  rcases hf2 : hex_to_rgb f with _ | fs
  · rw [linear_gradient_error_right s f rs n hs hf2] at h
    exact Except.noConfusion h
  rw [linear_gradient_eq_of_valid s f rs fs n hs hf2 hn] at h
  rw [← Except.ok.inj h]
  rfl

/-- **C9.** On a successfully constructed `ColorPicker` (with a positive
gradient length), `map_color` applied to an undefined (`None`/`NaN`)
`gc_content` returns the first element of the heterochromatin gradient ---
which is the lowercased configured heterochromatin base color --- for every
feature class other than `dummy`, including feature classes unknown to the
picker. -/
theorem map_color_undefined_gc (colors : String → List Char) (dm dt : ℚ)
    (count width : ℤ) (st : ColorPickerState) (feature : String)
    (hmk : mkColorPicker colors dm dt count width = some st)
    (hf : feature ≠ "dummy") (hc : 1 ≤ count) :
    map_color st feature none = some (toLowerStr (colors "heterochromatin")) := by
  unfold mkColorPicker at hmk
  by_cases hall : ¬ features.all (fun f => matchesUpperHexRegex (colors f))
  · rw [if_pos hall] at hmk
    exact Option.noConfusion hmk
  rw [if_neg hall] at hmk
  by_cases hdm : dm ≥ 1 ∨ dm ≤ 0
  · rw [if_pos hdm] at hmk
    exact Option.noConfusion hmk
  rw [if_neg hdm] at hmk
  by_cases hdt : dt ≥ 1 ∨ dt ≤ 0
  · rw [if_pos hdt] at hmk
    exact Option.noConfusion hmk
  rw [if_neg hdt] at hmk
  rcases he : (linear_gradient (colors "exon") defaultFinishHex count).toOption
      with _ | gE
  · simp [he] at hmk
  rcases hg : (linear_gradient (colors "gene") defaultFinishHex count).toOption
      with _ | gG
  · simp [he, hg] at hmk
  rcases hi : (linear_gradient (colors "intergenic") defaultFinishHex count).toOption
      with _ | gI
  · simp [he, hg, hi] at hmk
  rcases hcn : (linear_gradient (colors "centromere") defaultFinishHex count).toOption
      with _ | gC
  · simp [he, hg, hi, hcn] at hmk
  rcases hh : (linear_gradient (colors "heterochromatin") defaultFinishHex
      count).toOption with _ | gH
  · simp [he, hg, hi, hcn, hh] at hmk
  rcases hd : (linear_gradient (colors "dummy") defaultFinishHex count).toOption
      with _ | gD
  · simp [he, hg, hi, hcn, hh, hd] at hmk
  simp only [he, hg, hi, hcn, hh, hd] at hmk
  have hst := Option.some.inj hmk
  -- the heterochromatin gradient starts with the lowercased base color
  have hok : linear_gradient (colors "heterochromatin") defaultFinishHex count =
      Except.ok gH := by
    rcases hlg : linear_gradient (colors "heterochromatin") defaultFinishHex count
        with msg | out
    · rw [hlg] at hh
      exact Option.noConfusion hh
    · rw [hlg] at hh
      exact congrArg Except.ok (by simpa [Except.toOption] using hh)
  have hhead : gH.head? = some (toLowerStr (colors "heterochromatin")) :=
    linear_gradient_head _ _ _ _ (by omega) hok
  rcases gH with _ | ⟨c₀, tl⟩
  · exact Option.noConfusion hhead
  have hc₀ : c₀ = toLowerStr (colors "heterochromatin") :=
    Option.some.inj (by simpa using hhead)
  rw [← hst]
  unfold map_color
  rw [if_neg hf]
  simp [List.lookup, pyListGet, hc₀]

/-- Witness for C9: a picker whose six configured colors are all
`#EE0000`, gradient length 1, queried with the unknown feature class
`promoter` and an undefined GC ratio. -/
theorem map_color_undefined_gc_witness :
    map_color
      { colorMap :=
          [("exon", [['#', 'e', 'e', '0', '0', '0', '0']]),
           ("gene", [['#', 'e', 'e', '0', '0', '0', '0']]),
           ("intergenic", [['#', 'e', 'e', '0', '0', '0', '0']]),
           ("centromere", [['#', 'e', 'e', '0', '0', '0', '0']]),
           ("heterochromatin", [['#', 'e', 'e', '0', '0', '0', '0']]),
           ("dummy", [['#', 'e', 'e', '0', '0', '0', '0']])],
        dark_max := 1/2, dark_threshold := 1/2, width := 10, count := 1 }
      "promoter" none = some ['#', 'e', 'e', '0', '0', '0', '0'] := by
  have hgrad : linear_gradient ['#', 'E', 'E', '0', '0', '0', '0']
      defaultFinishHex 1 = Except.ok [['#', 'e', 'e', '0', '0', '0', '0']] := by
    rw [linear_gradient_eq_of_valid _ _ [238, 0, 0] [255, 255, 255] 1 (by rfl)
      (by rfl) (by decide), gradientSteps_eq_nil 1 (by decide)]
    rfl
  have hmk : mkColorPicker (fun _ => ['#', 'E', 'E', '0', '0', '0', '0'])
      (1/2) (1/2) 1 10 = some
      { colorMap :=
          [("exon", [['#', 'e', 'e', '0', '0', '0', '0']]),
           ("gene", [['#', 'e', 'e', '0', '0', '0', '0']]),
           ("intergenic", [['#', 'e', 'e', '0', '0', '0', '0']]),
           ("centromere", [['#', 'e', 'e', '0', '0', '0', '0']]),
           ("heterochromatin", [['#', 'e', 'e', '0', '0', '0', '0']]),
           ("dummy", [['#', 'e', 'e', '0', '0', '0', '0']])],
        dark_max := 1/2, dark_threshold := 1/2, width := 10, count := 1 } := by
    unfold mkColorPicker
    rw [if_neg (by decide), if_neg (by norm_num), if_neg (by norm_num), hgrad]
    rfl
  exact map_color_undefined_gc (fun _ => ['#', 'E', 'E', '0', '0', '0', '0'])
    (1/2) (1/2) 1 10 _ "promoter" hmk (by decide) (by decide)

/-! ## Claim theorems: data integration (C1, C2) -/

/-- **C1.** In the integration pipeline (non-dummy path: `add_genes`, then
`add_centromere`, then `assign_hetero`), the heterochromatin pass runs last
and overwrites the label of every chunk with undefined `GC_ratio`: whatever
the earlier passes assigned (including `centromere` for chunks inside the
centromere span), every chunk of the output with `GC_ratio = none` has the
final `GENCODE` label `heterochromatin`. -/
theorem integrate_data_hetero_overrides (chunks : List Chunk)
    (gencode : List GencodeFeature) (cytoband : List CytobandRow)
    (out : List Chunk)
    (h : integrate_data false chunks gencode cytoband = Except.ok out)
    (c : Chunk) (hc : c ∈ out) (hgc : c.GC_ratio = none) :
    c.GENCODE = some "heterochromatin" := by
  unfold integrate_data at h
  rcases hmk : mkIntegrator chunks with _ | st
  · rw [hmk] at h
    exact Except.noConfusion h
  rw [hmk] at h
  have h' : (fun a => a.assign_hetero.genome) <$>
      ((st.add_genes gencode).add_centromere cytoband) = Except.ok out := h
  rcases hctr : (st.add_genes gencode).add_centromere cytoband with msg | st₂
  · rw [hctr] at h'
    exact Except.noConfusion h'
  rw [hctr] at h'
  have hout : st₂.assign_hetero.genome = out := Except.ok.inj h' 
  rw [← hout] at hc
  unfold IntegratorState.assign_hetero at hc
  obtain ⟨c', _, hmap⟩ := List.mem_map.mp hc
  by_cases hnull : c'.GC_ratio = none
  · rw [if_pos hnull] at hmap
    rw [← hmap]
  · rw [if_neg hnull] at hmap
    rw [← hmap] at hgc
    exact absurd hgc hnull

/-- Witness for C1: a three-chunk chromosome whose middle chunk lies inside
the `acen` span and has undefined `GC_ratio`; after the full pipeline it is
labeled `heterochromatin` even though the centromere pass labeled it
`centromere`. -/
theorem integrate_data_hetero_overrides_witness :
    integrate_data false
      [{ chr := "7", start := 0, end_ := 10, GC_ratio := some 1 },
       { chr := "7", start := 10, end_ := 20, GC_ratio := none },
       { chr := "7", start := 20, end_ := 30, GC_ratio := some 0 }]
      [{ chr := "7", start := 12, end_ := 18, type := "exon" }]
      [{ chr := "7", start := 5, end_ := 25, name := "p11", type := "acen" }] =
      Except.ok
        [{ chr := "7", start := 0, end_ := 10, GC_ratio := some 1,
           GENCODE := some "centromere" },
         { chr := "7", start := 10, end_ := 20, GC_ratio := none,
           GENCODE := some "heterochromatin" },
         { chr := "7", start := 20, end_ := 30, GC_ratio := some 0,
           GENCODE := some "centromere" }] ∧
    ({ chr := "7", start := 10, end_ := 20, GC_ratio := none,
       GENCODE := some "heterochromatin" } : Chunk).GENCODE =
      some "heterochromatin" := by
  refine ⟨by rfl, ?_⟩
  exact integrate_data_hetero_overrides
    [{ chr := "7", start := 0, end_ := 10, GC_ratio := some 1 },
     { chr := "7", start := 10, end_ := 20, GC_ratio := none },
     { chr := "7", start := 20, end_ := 30, GC_ratio := some 0 }]
    [{ chr := "7", start := 12, end_ := 18, type := "exon" }]
    [{ chr := "7", start := 5, end_ := 25, name := "p11", type := "acen" }]
    _ (by rfl) _ (List.Mem.tail _ (List.Mem.head _)) (by rfl)

theorem intersectTypeColumn_eq_none (c : Chunk) (f : GencodeFeature) :
    intersectTypeColumn c f = none := rfl

/-- **C2.** In the `integrate_data` pipeline the gene/exon classification
can never assign `exon`: the intersect dataframe is parsed against 13
column names while its rows have only 11 fields (the genome carries no
`x`/`y` columns there), so the `type` column the classifier reads is
`NaN`-filled and every chunk with an overlapping feature is labeled
`gene`, the rest `intergenic`.  This contradicts the claim, which demands
`exon` when an exon-typed feature overlaps (`specChunkLabel` states the
claim's classification; the sibling flow in `plot_chromosome.py`, which
runs `add_xy_coordinates` first, realizes it, showing the claim is the
intent and the pipeline wiring the slip). -/
theorem add_genes_never_exon (st : IntegratorState)
    (gencode : List GencodeFeature) (c : Chunk)
    (hc : c ∈ (st.add_genes gencode).genome) :
    c.GENCODE ≠ some "exon" := by
  unfold IntegratorState.add_genes at hc
  dsimp only at hc
  obtain ⟨c', _, rfl⟩ := List.mem_map.mp hc
  dsimp only
  intro hcontra
  injection hcontra with hcontra
  unfold gencodeChunkLabel at hcontra
  dsimp only at hcontra
  have hany : (((intersectPairs st.chromosomeName gencode st.genome).filter
      fun p => p.1.start = c'.start).any
        fun p => intersectTypeColumn p.1 p.2 = some "exon") = false := by
    simp [intersectTypeColumn_eq_none]
  rw [hany] at hcontra
  by_cases he : ((intersectPairs st.chromosomeName gencode st.genome).filter
      fun p => p.1.start = c'.start).isEmpty
  · rw [if_pos he] at hcontra
    exact absurd hcontra (by decide)
  · rw [if_neg he] at hcontra
    exact absurd hcontra (by decide)

/-- Witness for C2 at the failing input: a chunk `[10, 20)` on chromosome 7
overlapped by an exon-typed feature `[12, 18)`.  The pipeline run of `add_genes`
labels it `gene`, never `exon`, while the classification the claim
states (`specChunkLabel`) demands `exon`. -/
theorem add_genes_never_exon_witness :
    (IntegratorState.add_genes
      { genome := [{ chr := "7", start := 10, end_ := 20, GC_ratio := none }],
        chromosomeName := "7" }
      [{ chr := "7", start := 12, end_ := 18, type := "exon" }]).genome =
      [{ chr := "7", start := 10, end_ := 20, GC_ratio := none,
         GENCODE := some "gene" }] ∧
    specChunkLabel [{ chr := "7", start := 12, end_ := 18, type := "exon" }]
      { chr := "7", start := 10, end_ := 20, GC_ratio := none } = "exon" ∧
    ¬ ({ chr := "7", start := 10, end_ := 20, GC_ratio := none,
         GENCODE := some "gene" } : Chunk).GENCODE = some "exon" := by
  refine ⟨by rfl, by rfl, ?_⟩
  exact add_genes_never_exon
    { genome := [{ chr := "7", start := 10, end_ := 20, GC_ratio := none }],
      chromosomeName := "7" }
    [{ chr := "7", start := 12, end_ := 18, type := "exon" }]
    _ (List.Mem.head _)

/-! ## Claim theorems: arm label layout (C3) -/

theorem arms_nil (arm : Arm) (fs : ℚ) (st : AnnotState) :
    genes_on_chromosome_arms arm fs st [] = (st, []) := rfl

theorem arms_cons (arm : Arm) (fs : ℚ) (st : AnnotState) (pos : ℚ)
    (rest : List ℚ) :
    genes_on_chromosome_arms arm fs st (pos :: rest) =
      ((genes_on_chromosome_arms arm fs (armStep arm fs st pos).1 rest).1,
       (armStep arm fs st pos).2 ::
         (genes_on_chromosome_arms arm fs (armStep arm fs st pos).1 rest).2) := rfl

theorem armStep_p_limit (fs : ℚ) (st : AnnotState) (pos : ℚ) :
    (armStep Arm.p fs st pos).1.limit = (armStep Arm.p fs st pos).2.2 - fs - 10 :=
  rfl

theorem armStep_q_limit (fs : ℚ) (st : AnnotState) (pos : ℚ) :
    (armStep Arm.q fs st pos).1.limit = (armStep Arm.q fs st pos).2.2 + fs + 10 :=
  rfl

theorem armStep_p_text_le (fs : ℚ) (st : AnnotState) (pos : ℚ) :
    (armStep Arm.p fs st pos).2.2 ≤ st.limit := by
  by_cases h : st.limit ≤ pos
  · simp only [armStep, if_pos h]
    linarith
  · simp only [armStep, if_neg h]
    linarith [not_le.mp h]

theorem armStep_q_text_ge (fs : ℚ) (st : AnnotState) (pos : ℚ) :
    st.limit ≤ (armStep Arm.q fs st pos).2.2 := by
  by_cases h : st.limit > pos
  · simp only [armStep, if_pos h]
    linarith
  · simp only [armStep, if_neg h]
    linarith [not_lt.mp h]

theorem arm_p_labels_le (fs : ℚ) (hfs : 0 ≤ fs) :
    ∀ (ps : List ℚ) (st : AnnotState) (l : ℚ × ℚ),
      l ∈ (genes_on_chromosome_arms Arm.p fs st ps).2 → l.2 ≤ st.limit := by
  intro ps
  induction ps with
  | nil =>
    intro st l hl
    rw [arms_nil] at hl
    exact absurd hl (List.not_mem_nil l)
  | cons pos rest ih =>
    intro st l hl
    rw [arms_cons] at hl
    rcases List.mem_cons.mp hl with rfl | hl
    · exact armStep_p_text_le fs st pos
    · have h1 := ih (armStep Arm.p fs st pos).1 l hl
      rw [armStep_p_limit] at h1
      have h2 := armStep_p_text_le fs st pos
      linarith

theorem arm_q_labels_ge (fs : ℚ) (hfs : 0 ≤ fs) :
    ∀ (ps : List ℚ) (st : AnnotState) (l : ℚ × ℚ),
      l ∈ (genes_on_chromosome_arms Arm.q fs st ps).2 → st.limit ≤ l.2 := by
  intro ps
  induction ps with
  | nil =>
    intro st l hl
    rw [arms_nil] at hl
    exact absurd hl (List.not_mem_nil l)
  | cons pos rest ih =>
    intro st l hl
    rw [arms_cons] at hl
    rcases List.mem_cons.mp hl with rfl | hl
    · exact armStep_q_text_ge fs st pos
    · have h1 := ih (armStep Arm.q fs st pos).1 l hl
      rw [armStep_q_limit] at h1
      have h2 := armStep_q_text_ge fs st pos
      linarith

theorem arm_p_pairwise (fs : ℚ) (hfs : 0 ≤ fs) :
    ∀ (ps : List ℚ) (st : AnnotState),
      List.Pairwise (fun a b => fs + 10 ≤ a.2 - b.2)
        (genes_on_chromosome_arms Arm.p fs st ps).2 := by
  intro ps
  induction ps with
  | nil =>
    intro st
    rw [arms_nil]
    exact List.Pairwise.nil
  | cons pos rest ih =>
    intro st
    rw [arms_cons]
    refine List.Pairwise.cons ?_ (ih _)
    intro b hb
    have hble := arm_p_labels_le fs hfs rest (armStep Arm.p fs st pos).1 b hb
    rw [armStep_p_limit] at hble
    linarith

theorem arm_q_pairwise (fs : ℚ) (hfs : 0 ≤ fs) :
    ∀ (ps : List ℚ) (st : AnnotState),
      List.Pairwise (fun a b => fs + 10 ≤ b.2 - a.2)
        (genes_on_chromosome_arms Arm.q fs st ps).2 := by
  intro ps
  induction ps with
  | nil =>
    intro st
    rw [arms_nil]
    exact List.Pairwise.nil
  | cons pos rest ih =>
    intro st
    rw [arms_cons]
    refine List.Pairwise.cons ?_ (ih _)
    intro b hb
    have hbge := arm_q_labels_ge fs hfs rest (armStep Arm.q fs st pos).1 b hb
    rw [armStep_q_limit] at hbge
    linarith

/-- **C3.** The arm layout pass never places two labels of the same arm
closer (in `text_position`) than `fontSize + 10` (label height plus
margin), for any non-negative font size, any starting state (in particular
the `limit` initialized to the centromere pixel position) and any gene
position sequence on either arm; and with an empty gene list the full
annotation run returns an empty label list with `(top, bottom) =
(0, height)`, the input chromosome pixel extent. -/
theorem arm_layout_spacing_and_empty (fs : ℚ) (st stq : AnnotState)
    (ps qs : List ℚ)
    (centromerePosition width chunkSize pixel height : ℚ) (hfs : 0 ≤ fs) :
    List.Pairwise (fun a b => fs + 10 ≤ |a.2 - b.2|)
      (genes_on_chromosome_arms Arm.p fs st ps).2 ∧
    List.Pairwise (fun a b => fs + 10 ≤ |a.2 - b.2|)
      (genes_on_chromosome_arms Arm.q fs stq qs).2 ∧
    generate_gene_annot [] centromerePosition width chunkSize pixel height =
      ([], 0, height) := by
  refine ⟨?_, ?_, rfl⟩
  · exact (arm_p_pairwise fs hfs ps st).imp
      (fun h => le_trans h (le_abs_self _))
  · exact (arm_q_pairwise fs hfs qs stq).imp
      (fun h => by rw [abs_sub_comm]; exact le_trans h (le_abs_self _))

/-- Witness for C3: font size 20, centromere limit 100, three p-arm genes
(one forcing displacement) and three q-arm genes, plus an empty run on a
500-pixel chromosome. -/
theorem arm_layout_spacing_and_empty_witness :
    List.Pairwise (fun a b => (20 : ℚ) + 10 ≤ |a.2 - b.2|)
      (genes_on_chromosome_arms Arm.p 20
        { limit := 100, svgTop := 0, svgBottom := 500 } [90, 95, 30]).2 ∧
    List.Pairwise (fun a b => (20 : ℚ) + 10 ≤ |a.2 - b.2|)
      (genes_on_chromosome_arms Arm.q 20
        { limit := 100, svgTop := 0, svgBottom := 500 } [110, 105, 200]).2 ∧
    generate_gene_annot [] 50 10 100 2 500 = ([], 0, 500) :=
  arm_layout_spacing_and_empty 20
    { limit := 100, svgTop := 0, svgBottom := 500 }
    { limit := 100, svgTop := 0, svgBottom := 500 }
    [90, 95, 30] [110, 105, 200] 50 10 100 2 500 (by norm_num)

end GenomePlotter
